import Mathlib

/-!
Verification of the signal-mcp repository (a Deno MCP server wrapping
signal-cli) against its natural-language specification.

The development shallowly embeds the relevant source functions:
* `src/src/message-cache.ts` — the `MessageCache` history store
  (`storeMessage`, `getRecentChats`, `searchMessages`);
* `src/signal-cli.ts` — the `SignalCLI` collaborator adapter
  (`execute`, `isGroupId`, `sendMessage`, `downloadMedia`);
* `src/src/index.ts` — the session transport router for the `/sse` and
  `/message` endpoints.

JavaScript strings are modelled as Lean `String`, JS numbers occurring as
timestamps, exit codes and lengths as `Int`/`Nat`, optional (possibly
`undefined`) fields as `Option`, and JS truthiness of optional strings is
modelled explicitly.  Statefulness (the in-memory message array, the live
transport map) is modelled by explicit state passing.
-/

namespace SignalMcp

/-- JS truthiness of an optional string: `undefined` and the empty string
are falsy, every other string is truthy. -/
def jsTruthy : Option String → Bool
  | none => false
  | some s => !(s == "")

/-- JS `a || b` for an optional string `a` and a string default `b`:
yields the value of `a` when truthy, otherwise `b`. -/
def jsOrElse (a : Option String) (b : String) : String :=
  match a with
  | none => b
  | some s => if s == "" then b else s

/-- JS `a || b` for two plain strings (the empty string is falsy). -/
def jsOrElseStr (a b : String) : String :=
  if a == "" then b else a

/-- `leadsWith needle hay` is true when `needle` occurs at the start of
`hay` (character-wise). -/
def leadsWith : List Char → List Char → Bool
  | [], _ => true
  | _ :: _, [] => false
  | a :: as, b :: bs => a == b && leadsWith as bs

/-- `charsIncludes hay needle`: the needle occurs contiguously somewhere in
the haystack.  Models JS `String.prototype.includes`. -/
def charsIncludes : List Char → List Char → Bool
  | [], needle => needle.isEmpty
  | b :: bs, needle => leadsWith needle (b :: bs) || charsIncludes bs needle

/-- JS `hay.includes(needle)`. -/
def strIncludes (hay needle : String) : Bool :=
  charsIncludes hay.toList needle.toList

/-- JS `s.toLowerCase()`, character-wise. -/
def strToLower (s : String) : String :=
  ⟨s.data.map Char.toLower⟩

/-- JS `s.startsWith(t)`. -/
def strStartsWith (s t : String) : Bool :=
  leadsWith t.data s.data

/-- Stable insertion (descending by an integer key): the new element goes
before the first element whose key is less than or equal to its own.
Together with `sortByDesc` this models the JS stable
`array.sort((a, b) => key(b) - key(a))`. -/
def insertByDesc {α : Type} (key : α → Int) (x : α) : List α → List α
  | [] => [x]
  | y :: ys => if key y ≤ key x then x :: y :: ys else y :: insertByDesc key x ys

/-- Stable sort, descending by an integer key; models the JS
`array.sort((a, b) => key(b) - key(a))` used throughout the cache. -/
def sortByDesc {α : Type} (key : α → Int) : List α → List α
  | [] => []
  | x :: xs => insertByDesc key x (sortByDesc key xs)

/-! ## Data model (`src/types.ts`) -/

/-- One attachment entry of a normalized message result
(`MessageResult.attachments` element in `src/types.ts`). -/
structure AttachmentInfo where
  id : String
  contentType : String
  filename : Option String
  size : Option Int
deriving DecidableEq

/-- `MessageResult` from `src/types.ts`: the normalized message shape. -/
structure MessageResult where
  sender : String
  senderName : Option String
  timestamp : Int
  body : Option String
  attachments : Option (List AttachmentInfo)
  isGroup : Option Bool
  groupId : Option String
deriving DecidableEq

/-- `SendMessageResult` from `src/types.ts`. -/
structure SendMessageResult where
  success : Bool
  timestamp : Option Int
  messageId : Option String
  error : Option String
deriving DecidableEq

/-! ## History store (`src/src/message-cache.ts`) -/

/-- `CachedMessage` from `src/src/message-cache.ts` (the bidirectional
variant, with the `recipient` field for outgoing records). -/
structure CachedMessage where
  sender : String
  senderName : Option String
  recipient : Option String
  timestamp : Int
  body : Option String
  isGroup : Bool
  groupId : Option String
  read : Bool
deriving DecidableEq

/-- `RecentChat` from `src/src/message-cache.ts`. -/
structure RecentChat where
  contact : String
  contactName : Option String
  isGroup : Bool
  groupName : Option String
  lastMessageTimestamp : Int
  lastMessageBody : Option String
  unreadCount : Nat
deriving DecidableEq

/-- `MessageCache.maxMessages`: keep last 10k messages. -/
def maxMessages : Nat := 10000

/-- The duplicate check at the top of `MessageCache.storeMessage`:
`this.messages.some(m => m.timestamp === message.timestamp && m.sender === message.sender)`.
Note it compares the raw incoming `message.sender`. -/
def existsCheck (messages : List CachedMessage) (message : MessageResult) : Bool :=
  messages.any fun m => m.timestamp == message.timestamp && m.sender == message.sender

/-- The record pushed by `MessageCache.storeMessage`: the sender is
normalized by `message.sender || "unknown"`, `isGroup` by
`message.isGroup || false`, and `read` starts out false. -/
def toCached (message : MessageResult) (recipient : Option String) : CachedMessage :=
  { sender := jsOrElseStr message.sender "unknown"
    senderName := message.senderName
    recipient := recipient
    timestamp := message.timestamp
    body := message.body
    isGroup := message.isGroup.getD false
    groupId := message.groupId
    read := false }

/-- `MessageCache.storeMessage(message, recipient)` acting on the message
array: return unchanged if the duplicate check fires; otherwise push the
cached record, and if the array has grown beyond `maxMessages`, sort by
timestamp descending and keep the first `maxMessages` entries. -/
def storeMessage (messages : List CachedMessage) (message : MessageResult)
    (recipient : Option String) : List CachedMessage :=
  if existsCheck messages message then messages
  else if maxMessages < (messages ++ [toCached message recipient]).length then
    (sortByDesc (fun c => c.timestamp) (messages ++ [toCached message recipient])).take maxMessages
  else messages ++ [toCached message recipient]

/-- `MessageCache.storeMessages`: fold `storeMessage` over a batch,
starting from the empty cache; used to describe reachable cache states. -/
def storeAll (ops : List (MessageResult × Option String)) : List CachedMessage :=
  ops.foldl (fun s p => storeMessage s p.1 p.2) []

/-- The conversation partner of a cached message, as computed inside
`MessageCache.getRecentChats`: `msg.groupId || msg.sender` for group
messages, `msg.recipient || msg.sender` for direct messages. -/
def conversationPartner (msg : CachedMessage) : String :=
  if msg.isGroup then jsOrElse msg.groupId msg.sender
  else jsOrElse msg.recipient msg.sender

/-- Insert a message under its key in the chat map, preserving the JS
`Map` insertion order of keys and the per-key push order. -/
def addToChatMap (mp : List (String × List CachedMessage)) (k : String)
    (msg : CachedMessage) : List (String × List CachedMessage) :=
  match mp with
  | [] => [(k, [msg])]
  | (key, ms) :: rest =>
    if key == k then (key, ms ++ [msg]) :: rest
    else (key, ms) :: addToChatMap rest k msg

/-- The `chatMap` built by the first loop of `MessageCache.getRecentChats`. -/
def chatMapOf (messages : List CachedMessage) : List (String × List CachedMessage) :=
  messages.foldl (fun mp msg => addToChatMap mp (conversationPartner msg) msg) []

/-- One chat summary of `MessageCache.getRecentChats`: sort the partner's
messages newest first, take the head as the last message, count unread
incoming messages, and resolve the display name from the first incoming
message with a truthy sender name.  `none` only on an empty message list,
which `chatMapOf` never produces. -/
def chatSummary (partner : String) (msgs : List CachedMessage) : Option RecentChat :=
  match sortByDesc (fun c => c.timestamp) msgs with
  | [] => none
  | lastMessage :: rest =>
    let sorted := lastMessage :: rest
    let unreadCount := (sorted.filter fun m => !m.read && !(jsTruthy m.recipient)).length
    let displayName :=
      match sorted.find? (fun m => !(jsTruthy m.recipient)) with
      | some incoming =>
        match incoming.senderName with
        | some nm => if nm == "" then partner else nm
        | none => partner
      | none => partner
    some { contact := partner
           contactName := some displayName
           lastMessageTimestamp := lastMessage.timestamp
           isGroup := lastMessage.isGroup
           groupName := if lastMessage.isGroup then some displayName else none
           lastMessageBody := lastMessage.body
           unreadCount := unreadCount }

/-- `MessageCache.getRecentChats(limit)`: group the cached messages by
conversation partner, summarize each group, sort the summaries by last
message timestamp descending and return the first `limit` of them. -/
def getRecentChats (messages : List CachedMessage) (limit : Nat) : List RecentChat :=
  let chats := (chatMapOf messages).filterMap fun p => chatSummary p.1 p.2
  (sortByDesc (fun c => c.lastMessageTimestamp) chats).take limit

/-- The text-match test of `MessageCache.searchMessages`: body, sender or
display name contains the lowercased query, case-insensitively. -/
def matchesQueryCached (lowerQuery : String) (msg : CachedMessage) : Bool :=
  (msg.body.any fun b => strIncludes (strToLower b) lowerQuery) ||
  strIncludes (strToLower msg.sender) lowerQuery ||
  (msg.senderName.any fun n => strIncludes (strToLower n) lowerQuery)

/-- The bidirectional contact filter of `MessageCache.searchMessages`:
messages from the contact (sender or display name contains it) or to the
contact (recipient contains it). -/
def senderDirFilter (senderLower : String) (msg : CachedMessage) : Bool :=
  (strIncludes (strToLower msg.sender) senderLower ||
    (msg.senderName.any fun n => strIncludes (strToLower n) senderLower)) ||
  (msg.recipient.any fun r => strIncludes (strToLower r) senderLower)

/-- The whole filter predicate of `MessageCache.searchMessages`: a text
match is required; when the optional `sender` argument is truthy, the
bidirectional contact filter applies in addition. -/
def searchFilter (query : String) (sender : Option String) (msg : CachedMessage) : Bool :=
  if !(matchesQueryCached (strToLower query) msg) then false
  else if jsTruthy sender then senderDirFilter (strToLower (sender.getD "")) msg
  else true

/-- The projection applied by `MessageCache.searchMessages` and
`getRecentMessages` when converting a cached record back to a
`MessageResult` (attachments are not restored). -/
def toResult (msg : CachedMessage) : MessageResult :=
  { sender := msg.sender
    senderName := msg.senderName
    timestamp := msg.timestamp
    body := msg.body
    attachments := none
    isGroup := some msg.isGroup
    groupId := msg.groupId }

/-- `MessageCache.searchMessages(query, sender, limit)`: filter, sort by
timestamp descending, truncate to `limit`, project to `MessageResult`. -/
def searchMessages (messages : List CachedMessage) (query : String)
    (sender : Option String) (limit : Nat) : List MessageResult :=
  let filtered := messages.filter (searchFilter query sender)
  ((sortByDesc (fun c => c.timestamp) filtered).take limit).map toResult

/-- The case-insensitive text match on a returned `MessageResult`, stating
the claim's property on search results. -/
def matchesQueryResult (query : String) (r : MessageResult) : Bool :=
  (r.body.any fun b => strIncludes (strToLower b) (strToLower query)) ||
  strIncludes (strToLower r.sender) (strToLower query) ||
  (r.senderName.any fun n => strIncludes (strToLower n) (strToLower query))

/-- The records evicted by an overflowing `storeMessage`: everything past
the first `maxMessages` entries of the sorted pushed array. -/
def evicted (messages : List CachedMessage) (message : MessageResult)
    (recipient : Option String) : List CachedMessage :=
  (sortByDesc (fun c => c.timestamp) (messages ++ [toCached message recipient])).drop maxMessages

/-- A bulk cache state of `n` distinct messages (sender "bulk", timestamps
`n-1, …, 0`), used to instantiate theorems at a full cache. -/
def bulkMessages : Nat → List CachedMessage
  | 0 => []
  | n + 1 =>
    { sender := "bulk", senderName := none, recipient := none,
      timestamp := Int.ofNat n, body := none, isGroup := false,
      groupId := none, read := false } :: bulkMessages n

/-! ## Session transport router (`src/src/index.ts`, `main`) -/

/-- The router state: the `transports` map of `main`, modelled by its key
set (the live session ids) in insertion order. -/
structure RouterState where
  transports : List String
deriving DecidableEq

/-- The `/sse` handler body: `transports.set(transport.sessionId, transport)`
registers the fresh session id. -/
def openSession (st : RouterState) (sessionId : String) : RouterState :=
  ⟨st.transports ++ [sessionId]⟩

/-- The `cancel()` callback of the `/sse` ReadableStream — its body is
empty (a bare comment), so a client disconnect removes nothing from the
`transports` map. -/
def cancelStream (st : RouterState) (_sessionId : String) : RouterState :=
  st

/-- Outcome of the `/message` handler: either an immediate HTTP response,
or dispatch of the body to the transport found for the session id
(`transport.handlePostMessage`). -/
inductive MessageRouteResult where
  | response (status : Nat) (body : String)
  | handled (sessionId : String) (body : String)
deriving DecidableEq

/-- The `/message` POST handler of `main`: missing `sessionId` query
parameter gives 400, an id absent from the `transports` map gives 404,
otherwise the body is handed to that session's transport. -/
def routeMessage (st : RouterState) (sessionId : Option String)
    (body : String) : MessageRouteResult :=
  match sessionId with
  | none => .response 400 "Missing sessionId"
  | some sid =>
    if st.transports.contains sid then .handled sid body
    else .response 404 "Session not found"

/-! ## Collaborator adapter (`src/signal-cli.ts`, class `SignalCLI`) -/

/-- The options object passed to `new Deno.Command` by `SignalCLI.execute`:
baseline arguments plus piped stdio.  No `signal` option appears in the
source, hence `signal := none`. -/
structure CommandOptions where
  args : List String
  stdoutPiped : Bool
  stderrPiped : Bool
  signal : Option Unit
deriving DecidableEq

/-- The options `SignalCLI.execute` constructs:
`["-a", account, "--output=json", ...args]`, stdout and stderr piped, and
no abort signal wired to the command. -/
def executeOptions (account : String) (args : List String) : CommandOptions :=
  { args := ["-a", account, "--output=json"] ++ args
    stdoutPiped := true
    stderrPiped := true
    signal := none }

/-- Behaviour of one subprocess run: how long it would run, and the exit
code and captured stdio it produces on completion. -/
structure ProcRun where
  runtimeMs : Nat
  code : Int
  stdout : String
  stderr : String
deriving DecidableEq

/-- The value `await process.output()` settles to. -/
inductive AwaitResult where
  | aborted
  | completed (code : Int) (stdout stderr : String)
deriving DecidableEq

/-- Deno semantics of `process.output()` under
`setTimeout(() => controller.abort(), timeout)`: the subprocess is killed
early (and `output()` rejects with an AbortError) only when the
controller's signal is wired into the command options; an abort on an
unconnected controller has no observable effect, so `output()` resolves
with the completed process. -/
def awaitOutput (opts : CommandOptions) (timeoutMs : Nat) (proc : ProcRun) : AwaitResult :=
  match opts.signal with
  | some _ =>
    if timeoutMs < proc.runtimeMs then .aborted
    else .completed proc.code proc.stdout proc.stderr
  | none => .completed proc.code proc.stdout proc.stderr

/-- The failures `SignalCLI.execute` can raise: the AbortError translation
carrying the configured budget, or the non-zero-exit error carrying the
exit code and captured stderr. -/
inductive ExecError where
  | timeout (budgetMs : Nat)
  | cliError (code : Int) (stderr : String)
deriving DecidableEq

/-- The `Error.message` strings built by `SignalCLI.execute`. -/
def errMessage : ExecError → String
  | .timeout b => "signal-cli command timeout after " ++ toString b ++ "ms"
  | .cliError code stderr => "signal-cli error (exit code " ++ toString code ++ "): " ++ stderr

/-- `SignalCLI.execute(args)` on a subprocess behaving as `proc`: await the
output under the timeout scheme, translate an abort into the timeout
error, a non-zero exit into the cli error, and otherwise succeed.  The
success payload stands for the decoded stdout; the per-line JSON parsing
is not modelled, as its inner catch cannot raise and no claim depends on
the parsed values. -/
def execute (account : String) (timeoutMs : Nat) (args : List String)
    (proc : ProcRun) : Except ExecError String :=
  match awaitOutput (executeOptions account args) timeoutMs proc with
  | .aborted => .error (.timeout timeoutMs)
  | .completed code out err =>
    if code ≠ 0 then .error (.cliError code err) else .ok out

/-- The base64 character class `[A-Za-z0-9+/]` of `SignalCLI.isGroupId`. -/
def isBase64Char (c : Char) : Bool :=
  c.isAlphanum || c == '+' || c == '/'

/-- The regex test `^[A-Za-z0-9+/]+=*$` of `SignalCLI.isGroupId`, as an
executable matcher: a nonempty run of base64 characters followed only by
padding.  Since the padding character is outside the class, the greedy
split is exact. -/
def base64PatternTest (s : String) : Bool :=
  let cs := s.toList
  !(cs.takeWhile isBase64Char).isEmpty &&
    (cs.dropWhile isBase64Char).all fun c => c == '='

/-- Declarative reading of the same regex, following the spec's words: the
string decomposes into a nonempty base64-alphabet part followed by a run
of padding characters. -/
def specBase64Match (s : String) : Prop :=
  ∃ b e : List Char, s.toList = b ++ e ∧ b ≠ [] ∧
    (∀ c ∈ b, isBase64Char c = true) ∧ ∀ c ∈ e, c = '='

/-- `SignalCLI.isGroupId(recipient)`: not a phone number (no leading
sigil), matches the base64 pattern, and is longer than 20 characters. -/
def isGroupId (recipient : String) : Bool :=
  if strStartsWith recipient "+" then false
  else base64PatternTest recipient && decide (20 < recipient.length)

/-- The argument list `SignalCLI.sendMessage` builds: the group flag is
used exactly when `isGroupId` accepts the recipient. -/
def sendArgs (recipient message : String) : List String :=
  let args := ["send", "-m", message]
  if isGroupId recipient then args ++ ["-g", recipient]
  else args ++ [recipient]

/-- `SignalCLI.sendMessage(recipient, message)` on a subprocess behaving as
`proc`, with `now` standing for `Date.now()`: success with the current
timestamp when `execute` succeeds, a structured failure carrying the
error's message otherwise (the catch never rethrows).  The `messageId`
payload stands for `JSON.stringify(result)`. -/
def sendMessage (account : String) (timeoutMs : Nat) (now : Int)
    (recipient message : String) (proc : ProcRun) : SendMessageResult :=
  match execute account timeoutMs (sendArgs recipient message) proc with
  | .ok out =>
    { success := true, timestamp := some now, messageId := some out, error := none }
  | .error e =>
    { success := false, timestamp := none, messageId := none, error := some (errMessage e) }

/-- Result shape of `SignalCLI.downloadMedia`. -/
structure DownloadMediaResult where
  path : Option String
  data : Option String
  error : Option String
deriving DecidableEq

/-- `SignalCLI.downloadMedia(messageId, attachmentId)`: the try block only
returns `{ path: attachmentId }` — nothing in it can throw, so the catch
branch producing `{ error }` is dead code. -/
def downloadMedia (_messageId attachmentId : String) : DownloadMediaResult :=
  { path := some attachmentId, data := none, error := none }

/-! ## Auxiliary definitions for the statements -/

/-- Number of retained records carrying a given `(sender, timestamp)` pair. -/
def countPair (messages : List CachedMessage) (s : String) (t : Int) : Nat :=
  (messages.filter fun c => c.sender == s && c.timestamp == t).length

/-- Two cached records do not share a `(sender, timestamp)` pair. -/
def distinctPair (a b : CachedMessage) : Prop :=
  ¬(a.sender = b.sender ∧ a.timestamp = b.timestamp)

/-- A message record whose sender is the empty string (falsy in JS). -/
def emptySenderProbe : MessageResult :=
  { sender := "", senderName := none, timestamp := 5, body := none,
    attachments := none, isGroup := none, groupId := none }

/-- A plain message record used to instantiate theorems. -/
def resultA : MessageResult :=
  { sender := "a", senderName := none, timestamp := 7, body := none,
    attachments := none, isGroup := none, groupId := none }

/-- The cached form of `resultA`. -/
def cachedA : CachedMessage :=
  { sender := "a", senderName := none, recipient := none, timestamp := 7,
    body := none, isGroup := false, groupId := none, read := false }

/-- A probe record never occurring in `bulkMessages` states. -/
def probeB : MessageResult :=
  { sender := "probe", senderName := none, timestamp := -1, body := none,
    attachments := none, isGroup := none, groupId := none }

/-! ## Sorting lemmas -/

theorem insertByDesc_perm {α : Type} (key : α → Int) (x : α) (l : List α) :
    (insertByDesc key x l).Perm (x :: l) := by
  induction l with
  | nil => exact List.Perm.refl _
  | cons y ys ih =>
    rw [insertByDesc]
    split
    · exact List.Perm.refl _
    · exact (ih.cons y).trans (List.Perm.swap x y ys)

theorem sortByDesc_perm {α : Type} (key : α → Int) (l : List α) :
    (sortByDesc key l).Perm l := by
  induction l with
  | nil => exact List.Perm.refl _
  | cons x xs ih =>
    rw [sortByDesc]
    exact (insertByDesc_perm key x (sortByDesc key xs)).trans (ih.cons x)

theorem insertByDesc_pairwise {α : Type} (key : α → Int) (x : α) (l : List α)
    (h : l.Pairwise fun a b => key b ≤ key a) :
    (insertByDesc key x l).Pairwise fun a b => key b ≤ key a := by
  induction l with
  | nil => simp [insertByDesc]
  | cons y ys ih =>
    rw [insertByDesc]
    rcases List.pairwise_cons.mp h with ⟨hy, hys⟩
    split
    · rename_i hyx
      refine List.pairwise_cons.mpr ⟨?_, h⟩
      intro z hz
      rcases List.mem_cons.mp hz with rfl | hz
      · exact hyx
      · exact le_trans (hy z hz) hyx
    · rename_i hyx
      refine List.pairwise_cons.mpr ⟨?_, ih hys⟩
      intro z hz
      rcases List.mem_cons.mp ((insertByDesc_perm key x ys).mem_iff.mp hz) with rfl | hz
      · exact le_of_lt (lt_of_not_le hyx)
      · exact hy z hz

theorem sortByDesc_pairwise {α : Type} (key : α → Int) (l : List α) :
    (sortByDesc key l).Pairwise fun a b => key b ≤ key a := by
  induction l with
  | nil => simp [sortByDesc]
  | cons x xs ih => exact insertByDesc_pairwise key x _ ih

theorem pairwise_take_drop {α : Type} {R : α → α → Prop} {l : List α}
    (h : l.Pairwise R) (n : Nat) :
    ∀ x ∈ l.take n, ∀ y ∈ l.drop n, R x y := by
  have h2 : (l.take n ++ l.drop n).Pairwise R := by
    rwa [List.take_append_drop]
  exact (List.pairwise_append.mp h2).2.2

/-! ## Claim theorems -/

/-- Claim C1 (divergence demonstration): a never-issued session id yields
404 from the `/message` handler, but a session id whose stream was opened
and then closed (the client-disconnect `cancel()` callback ran) does NOT
yield 404 — the empty `cancel()` body leaves the id in the `transports`
map, so the request is dispatched to the dead transport and the two
responses are distinguishable, contradicting the claim. -/
theorem c1_closed_session_not_404 :
    routeMessage ⟨[]⟩ (some "abc") "payload" = .response 404 "Session not found"
    ∧ cancelStream (openSession ⟨[]⟩ "abc") "abc" = ⟨["abc"]⟩
    ∧ routeMessage (cancelStream (openSession ⟨[]⟩ "abc") "abc") (some "abc") "payload"
        = .handled "abc" "payload"
    ∧ routeMessage (cancelStream (openSession ⟨[]⟩ "abc") "abc") (some "abc") "payload"
        ≠ routeMessage ⟨[]⟩ (some "abc") "payload" := by
  refine ⟨rfl, rfl, rfl, ?_⟩
  decide

/-- Claim C2: a POST to `/message` without a `sessionId` query parameter
always yields status 400 with the "Missing sessionId" body, whatever the
request body is, and that response differs from the 404 produced for an
unknown session id. -/
theorem c2_missing_session_id_400 : ∀ (st : RouterState) (body : String),
    routeMessage st none body = .response 400 "Missing sessionId"
    ∧ ∀ sid : String, st.transports.contains sid = false →
        routeMessage st (some sid) body = .response 404 "Session not found"
        ∧ routeMessage st none body ≠ routeMessage st (some sid) body := by
  intro st body
  refine ⟨rfl, ?_⟩
  intro sid h
  have h2 : sid ∉ st.transports := by simpa using h
  refine ⟨by simp [routeMessage, h2], ?_⟩
  simp [routeMessage, h2]

/-- Witness for C2 at a concrete router state and session id. -/
theorem c2_missing_session_id_400_witness :
    (RouterState.mk []).transports.contains "s" = false
    ∧ (routeMessage ⟨[]⟩ (some "s") "x" = .response 404 "Session not found"
        ∧ routeMessage ⟨[]⟩ none "x" ≠ routeMessage ⟨[]⟩ (some "s") "x") :=
  ⟨by decide, (c2_missing_session_id_400 ⟨[]⟩ "x").2 "s" (by decide)⟩

/-- Claim C10: `downloadMedia` echoes the attachment id back as the path,
ignores the message id, and never produces an error result. -/
theorem c10_download_media_echo : ∀ messageId attachmentId : String,
    downloadMedia messageId attachmentId
      = { path := some attachmentId, data := none, error := none }
    ∧ (downloadMedia messageId attachmentId).error = none
    ∧ ∀ otherId : String,
        downloadMedia otherId attachmentId = downloadMedia messageId attachmentId := by
  intro messageId attachmentId
  exact ⟨rfl, rfl, fun _ => rfl⟩

/-- Claim C5: `getRecentChats(limit)` returns at most `limit` summaries,
sorted by `lastMessageTimestamp` in descending order. -/
theorem c5_recent_chats_bounded_sorted : ∀ (messages : List CachedMessage) (limit : Nat),
    (getRecentChats messages limit).length ≤ limit
    ∧ (getRecentChats messages limit).Pairwise
        fun a b => b.lastMessageTimestamp ≤ a.lastMessageTimestamp := by
  intro messages limit
  constructor
  · rw [getRecentChats]
    exact List.length_take_le _ _
  · have hs := sortByDesc_pairwise (fun c : RecentChat => c.lastMessageTimestamp)
      ((chatMapOf messages).filterMap fun p => chatSummary p.1 p.2)
    exact List.Pairwise.sublist (List.take_sublist _ _) hs

/-! ## Regex lemmas for the base64 pattern -/

theorem takeWhile_sat {α : Type} (p : α → Bool) (l : List α) :
    ∀ c ∈ l.takeWhile p, p c = true := by
  induction l with
  | nil => simp
  | cons x xs ih =>
    intro c hc
    rw [List.takeWhile_cons] at hc
    cases hx : p x with
    | true => rw [hx] at hc; simp only [if_true] at hc
              rcases List.mem_cons.mp hc with rfl | hc
              · exact hx
              · exact ih c hc
    | false => rw [hx] at hc; simp at hc

theorem takeWhile_append_sat {α : Type} (p : α → Bool) (b e : List α)
    (hb : ∀ c ∈ b, p c = true) :
    (b ++ e).takeWhile p = b ++ e.takeWhile p := by
  induction b with
  | nil => simp
  | cons x xs ih =>
    have hx : p x = true := hb x (by simp)
    simp only [List.cons_append, List.takeWhile_cons, hx, if_true]
    rw [ih fun c hc => hb c (by simp [hc])]

theorem dropWhile_append_sat {α : Type} (p : α → Bool) (b e : List α)
    (hb : ∀ c ∈ b, p c = true) :
    (b ++ e).dropWhile p = e.dropWhile p := by
  induction b with
  | nil => simp
  | cons x xs ih =>
    have hx : p x = true := hb x (by simp)
    simp only [List.cons_append, List.dropWhile_cons, hx, if_true]
    exact ih fun c hc => hb c (by simp [hc])

theorem takeWhile_none {α : Type} (p : α → Bool) (l : List α)
    (h : ∀ c ∈ l, p c = false) : l.takeWhile p = [] := by
  cases l with
  | nil => rfl
  | cons x xs => simp [List.takeWhile_cons, h x (by simp)]

theorem dropWhile_none {α : Type} (p : α → Bool) (l : List α)
    (h : ∀ c ∈ l, p c = false) : l.dropWhile p = l := by
  cases l with
  | nil => rfl
  | cons x xs => simp [List.dropWhile_cons, h x (by simp)]

theorem base64PatternTest_iff (s : String) :
    base64PatternTest s = true ↔ specBase64Match s := by
  constructor
  · intro h
    rw [base64PatternTest, Bool.and_eq_true] at h
    obtain ⟨h1, h2⟩ := h
    refine ⟨s.toList.takeWhile isBase64Char, s.toList.dropWhile isBase64Char,
      (List.takeWhile_append_dropWhile isBase64Char s.toList).symm, ?_, takeWhile_sat _ _, ?_⟩
    · intro hnil
      rw [hnil] at h1
      simp at h1
    · intro c hc
      have := List.all_eq_true.mp h2 c hc
      exact eq_of_beq this
  · rintro ⟨b, e, hbe, hne, hball, heall⟩
    have hefalse : ∀ c ∈ e, isBase64Char c = false := by
      intro c hc
      rw [heall c hc]
      decide
    rw [base64PatternTest, hbe, takeWhile_append_sat _ _ _ hball,
      dropWhile_append_sat _ _ _ hball, takeWhile_none _ _ hefalse,
      dropWhile_none _ _ hefalse]
    simp only [List.append_nil, Bool.and_eq_true, List.all_eq_true]
    refine ⟨by simp [hne], ?_⟩
    intro c hc
    simp [heall c hc]

theorem isGroupId_iff (r : String) :
    isGroupId r = true ↔
      strStartsWith r "+" = false ∧ specBase64Match r ∧ 20 < r.length := by
  rw [isGroupId]
  cases hs : strStartsWith r "+" with
  | true => simp [hs]
  | false => simp [base64PatternTest_iff r]

/-- Claim C6: `sendMessage` passes the recipient through the `-g` group
flag exactly when the address does not start with the phone sigil,
matches the base64-alphabet pattern `[A-Za-z0-9+/]+=*`, and is longer
than 20 characters; every other address is passed as a plain individual
recipient. -/
theorem c6_group_flag_iff : ∀ recipient message : String,
    (sendArgs recipient message = ["send", "-m", message, "-g", recipient]
      ↔ strStartsWith recipient "+" = false ∧ specBase64Match recipient ∧ 20 < recipient.length)
    ∧ (sendArgs recipient message = ["send", "-m", message, recipient]
      ↔ ¬(strStartsWith recipient "+" = false ∧ specBase64Match recipient ∧ 20 < recipient.length)) := by
  intro r m
  rw [← isGroupId_iff]
  rw [sendArgs]
  cases h : isGroupId r with
  | true => simp
  | false => simp

/-- Witness for C6: a phone-number recipient is passed plainly. -/
theorem c6_group_flag_iff_witness :
    sendArgs "+15551234567" "hi" = ["send", "-m", "hi", "+15551234567"] :=
  (c6_group_flag_iff "+15551234567" "hi").2.mpr
    (fun h => absurd h.1 (by decide))

/-- Claim C3 (divergence demonstration): the `AbortController` created by
`SignalCLI.execute` is never wired into the `Deno.Command` options
(`signal := none`), so the subprocess is never aborted: the timeout error
branch is unreachable for every invocation, and an invocation whose
subprocess outlives the 30000 ms budget still waits for it and uses its
exit status, contradicting the claim. -/
theorem c3_timeout_never_fires :
    (∀ (account : String) (timeoutMs : Nat) (args : List String) (proc : ProcRun) (b : Nat),
        execute account timeoutMs args proc ≠ .error (.timeout b))
    ∧ (executeOptions "+15550000000" ["receive", "--timeout", "1"]).signal = none
    ∧ 30000 < (ProcRun.mk 40000 0 "[]" "").runtimeMs
    ∧ execute "+15550000000" 30000 ["receive", "--timeout", "1"] ⟨40000, 0, "[]", ""⟩ = .ok "[]"
    ∧ execute "+15550000000" 30000 ["receive", "--timeout", "1"] ⟨40000, 3, "", "boom"⟩
        = .error (.cliError 3 "boom") := by
  refine ⟨?_, rfl, by decide, rfl, rfl⟩
  intro account t args proc b h
  by_cases hc : proc.code = 0
  · simp [execute, awaitOutput, executeOptions, hc] at h
  · simp [execute, awaitOutput, executeOptions, hc] at h

theorem errMessage_length_pos (e : ExecError) : 0 < (errMessage e).length := by
  cases e with
  | timeout b =>
    simp only [errMessage, String.length_append]
    have : 0 < ("signal-cli command timeout after ").length := by decide
    omega
  | cliError c stderr =>
    simp only [errMessage, String.length_append]
    have : 0 < ("signal-cli error (exit code ").length := by decide
    omega

theorem errMessage_ne_empty (e : ExecError) : errMessage e ≠ "" := by
  intro h
  have hp := errMessage_length_pos e
  rw [h] at hp
  exact absurd hp (by decide)

/-- Claim C7: `sendMessage` against a collaborator exiting 0 yields a
success result carrying the current wall-clock timestamp; against a
non-zero exit it yields a structured failure with a non-empty error
string, and never raises. -/
theorem c7_send_message_shape : ∀ (account : String) (timeoutMs : Nat) (now : Int)
    (recipient message : String) (proc : ProcRun),
    (proc.code = 0 →
      sendMessage account timeoutMs now recipient message proc
        = { success := true, timestamp := some now,
            messageId := some proc.stdout, error := none })
    ∧ (proc.code ≠ 0 →
      (sendMessage account timeoutMs now recipient message proc).success = false
      ∧ ∃ s : String,
          (sendMessage account timeoutMs now recipient message proc).error = some s
          ∧ s ≠ "") := by
  intro account t now r m proc
  constructor
  · intro h0
    simp [sendMessage, execute, awaitOutput, executeOptions, h0]
  · intro hne
    have hrw : sendMessage account t now r m proc
        = { success := false, timestamp := none, messageId := none,
            error := some (errMessage (.cliError proc.code proc.stderr)) } := by
      simp [sendMessage, execute, awaitOutput, executeOptions, hne]
    rw [hrw]
    exact ⟨rfl, errMessage (.cliError proc.code proc.stderr), rfl, errMessage_ne_empty _⟩

/-- Witness for C7 at concrete collaborator behaviours. -/
theorem c7_send_message_shape_witness :
    ((ProcRun.mk 50 0 "ok" "").code = 0
      ∧ sendMessage "+15550000000" 30000 1700000000 "+15551234567" "hi" ⟨50, 0, "ok", ""⟩
          = { success := true, timestamp := some 1700000000,
              messageId := some "ok", error := none })
    ∧ ((ProcRun.mk 50 2 "" "boom").code ≠ 0
      ∧ ((sendMessage "+15550000000" 30000 1700000000 "+15551234567" "hi" ⟨50, 2, "", "boom"⟩).success = false
          ∧ ∃ s : String,
              (sendMessage "+15550000000" 30000 1700000000 "+15551234567" "hi" ⟨50, 2, "", "boom"⟩).error = some s
              ∧ s ≠ "")) :=
  ⟨⟨rfl, (c7_send_message_shape "+15550000000" 30000 1700000000 "+15551234567" "hi" ⟨50, 0, "ok", ""⟩).1 rfl⟩,
   ⟨by decide, (c7_send_message_shape "+15550000000" 30000 1700000000 "+15551234567" "hi" ⟨50, 2, "", "boom"⟩).2 (by decide)⟩⟩

/-- Claim C8: every record returned by `searchMessages` matches the query
case-insensitively in its body, sender address or display name; when no
stored record matches, the result is the empty list (not an error). -/
theorem c8_search_only_matches : ∀ (messages : List CachedMessage) (query : String)
    (sender : Option String) (limit : Nat),
    (∀ r ∈ searchMessages messages query sender limit, matchesQueryResult query r = true)
    ∧ ((∀ m ∈ messages, matchesQueryCached (strToLower query) m = false) →
        searchMessages messages query sender limit = []) := by
  intro messages query sender limit
  constructor
  · intro r hr
    rw [searchMessages] at hr
    obtain ⟨c, hc, rfl⟩ := List.mem_map.mp hr
    have hc2 : c ∈ sortByDesc (fun c => c.timestamp)
        (messages.filter (searchFilter query sender)) :=
      (List.take_sublist _ _).subset hc
    have hc3 : c ∈ messages.filter (searchFilter query sender) :=
      (sortByDesc_perm _ _).mem_iff.mp hc2
    have hc4 : searchFilter query sender c = true := (List.mem_filter.mp hc3).2
    rw [searchFilter] at hc4
    cases hm : matchesQueryCached (strToLower query) c with
    | false => rw [hm] at hc4; simp at hc4
    | true =>
      show matchesQueryResult query (toResult c) = true
      calc matchesQueryResult query (toResult c)
          = matchesQueryCached (strToLower query) c := rfl
        _ = true := hm
  · intro hall
    have hf : messages.filter (searchFilter query sender) = [] := by
      rw [List.filter_eq_nil_iff]
      intro a ha
      simp [searchFilter, hall a ha]
    rw [searchMessages, hf]
    simp [sortByDesc]

/-! ## Deduplication lemmas for the history store -/

theorem storeMessage_of_exists {messages : List CachedMessage} {m : MessageResult}
    (r : Option String) (hex : existsCheck messages m = true) :
    storeMessage messages m r = messages := by
  rw [storeMessage, if_pos hex]

theorem storeMessage_push {messages : List CachedMessage} {m : MessageResult}
    (r : Option String) (hex : existsCheck messages m = false)
    (hlen : ¬ maxMessages < (messages ++ [toCached m r]).length) :
    storeMessage messages m r = messages ++ [toCached m r] := by
  rw [storeMessage, if_neg (by simp [hex]), if_neg hlen]

theorem storeMessage_trim {messages : List CachedMessage} {m : MessageResult}
    (r : Option String) (hex : existsCheck messages m = false)
    (hlen : maxMessages < (messages ++ [toCached m r]).length) :
    storeMessage messages m r
      = (sortByDesc (fun c => c.timestamp) (messages ++ [toCached m r])).take maxMessages := by
  rw [storeMessage, if_neg (by simp [hex]), if_pos hlen]

theorem existsCheck_true_of_mem {messages : List CachedMessage} {m : MessageResult}
    {c : CachedMessage} (hc : c ∈ messages) (ht : c.timestamp = m.timestamp)
    (hs : c.sender = m.sender) : existsCheck messages m = true := by
  rw [existsCheck, List.any_eq_true]
  exact ⟨c, hc, by rw [ht, hs]; simp⟩

theorem existsCheck_false_forall {messages : List CachedMessage} {m : MessageResult}
    (h : existsCheck messages m = false) :
    ∀ c ∈ messages, ¬(c.timestamp = m.timestamp ∧ c.sender = m.sender) := by
  rw [existsCheck, List.any_eq_false] at h
  intro c hc hcontra
  exact h c hc (by rw [hcontra.1, hcontra.2]; simp)

theorem toCached_sender {m : MessageResult} (h : m.sender ≠ "") (r : Option String) :
    (toCached m r).sender = m.sender := by
  have hb : (m.sender == "") = false := beq_eq_false_iff_ne.mpr h
  simp [toCached, jsOrElseStr, hb]

theorem existsCheck_false_of_countPair {messages : List CachedMessage} {m : MessageResult}
    (h : countPair messages m.sender m.timestamp = 0) :
    existsCheck messages m = false := by
  rw [countPair, List.length_eq_zero, List.filter_eq_nil_iff] at h
  rw [existsCheck, List.any_eq_false]
  intro c hc hp
  rw [Bool.and_eq_true] at hp
  exact h c hc (by rw [Bool.and_eq_true]; exact ⟨hp.2, hp.1⟩)

theorem distinctPair_symm : Symmetric distinctPair := by
  intro a b h hc
  exact h ⟨hc.1.symm, hc.2.symm⟩

theorem storeMessage_pairwise (messages : List CachedMessage) (m : MessageResult)
    (r : Option String) (hm : m.sender ≠ "")
    (h : messages.Pairwise distinctPair) :
    (storeMessage messages m r).Pairwise distinctPair := by
  cases hex : existsCheck messages m with
  | true => rw [storeMessage_of_exists r hex]; exact h
  | false =>
    have hall := existsCheck_false_forall hex
    have hpw : (messages ++ [toCached m r]).Pairwise distinctPair := by
      rw [List.pairwise_append]
      refine ⟨h, by simp [distinctPair], ?_⟩
      intro a ha b hb
      rw [List.mem_singleton] at hb
      subst hb
      intro hcontra
      exact hall a ha ⟨hcontra.2.trans rfl, hcontra.1.trans (toCached_sender hm r)⟩
    by_cases hlen : maxMessages < (messages ++ [toCached m r]).length
    · have hsorted := (List.Perm.pairwise_iff (fun hab => distinctPair_symm hab)
        (sortByDesc_perm (fun c : CachedMessage => c.timestamp)
          (messages ++ [toCached m r]))).mpr hpw
      rw [storeMessage_trim r hex hlen]
      exact List.Pairwise.sublist (List.take_sublist _ _) hsorted
    · rw [storeMessage_push r hex hlen]
      exact hpw

theorem storeAll_pairwise_aux : ∀ (ops : List (MessageResult × Option String))
    (acc : List CachedMessage), acc.Pairwise distinctPair →
    (∀ p ∈ ops, p.1.sender ≠ "") →
    (ops.foldl (fun s p => storeMessage s p.1 p.2) acc).Pairwise distinctPair := by
  intro ops
  induction ops with
  | nil => intro acc h _; simpa using h
  | cons p ps ih =>
    intro acc h hall
    rw [List.foldl_cons]
    exact ih _ (storeMessage_pairwise acc p.1 p.2 (hall p (by simp)) h)
      fun q hq => hall q (by simp [hq])

/-- Claim C4, counterexample: the claim fails as stated.  Storing the
record with empty sender and timestamp 5 twice retains TWO copies, both
stored under sender "unknown" and timestamp 5 — the duplicate check
compares the raw (empty) sender while the pushed record is normalized to
"unknown", so the pair ("unknown", 5) is retained twice. -/
theorem c4_counterexample :
    (storeMessage (storeMessage [] emptySenderProbe none) emptySenderProbe none).length = 2
    ∧ (storeMessage (storeMessage [] emptySenderProbe none) emptySenderProbe none).length ≠ 1
    ∧ ∀ c ∈ storeMessage (storeMessage [] emptySenderProbe none) emptySenderProbe none,
        c.sender = "unknown" ∧ c.timestamp = 5 := by
  decide

/-- Claim C4 (amended): (a) storing a record whose (sender, timestamp)
pair equals that of an already-stored record leaves the store unchanged;
(b) for a record with non-empty sender and a store below the retention
cap with no record carrying its pair, storing it twice is a no-op the
second time and retains exactly one copy; (c) in any store reachable by
insertions of records with non-empty senders, no two retained records
share a (sender, timestamp) pair.  (A record with empty sender is stored
under "unknown" while the duplicate check uses the raw sender, so such
records can be retained in duplicate — see the counterexample.) -/
theorem c4_amended :
    (∀ (messages : List CachedMessage) (m : MessageResult) (recipient : Option String)
        (c : CachedMessage), c ∈ messages → c.timestamp = m.timestamp → c.sender = m.sender →
        storeMessage messages m recipient = messages)
    ∧ (∀ (messages : List CachedMessage) (m : MessageResult) (recipient : Option String),
        m.sender ≠ "" → messages.length < maxMessages →
        countPair messages m.sender m.timestamp = 0 →
        storeMessage (storeMessage messages m recipient) m recipient
            = storeMessage messages m recipient
        ∧ countPair (storeMessage (storeMessage messages m recipient) m recipient)
            m.sender m.timestamp = 1)
    ∧ (∀ ops : List (MessageResult × Option String),
        (∀ p ∈ ops, p.1.sender ≠ "") →
        (storeAll ops).Pairwise distinctPair) := by
  refine ⟨?_, ?_, ?_⟩
  · intro messages m recipient c hc ht hs
    rw [storeMessage_of_exists recipient (existsCheck_true_of_mem hc ht hs)]
  · intro messages m r hs hlen hcp
    have hne := existsCheck_false_of_countPair hcp
    have hlen2 : ¬ maxMessages < (messages ++ [toCached m r]).length := by
      rw [List.length_append]
      simp only [List.length_singleton]
      omega
    have hstore1 : storeMessage messages m r = messages ++ [toCached m r] :=
      storeMessage_push r hne hlen2
    have hmem : toCached m r ∈ storeMessage messages m r := by
      rw [hstore1]; simp
    have hex2 : existsCheck (storeMessage messages m r) m = true :=
      existsCheck_true_of_mem hmem (by rfl) (toCached_sender hs r)
    have hstore2 : storeMessage (storeMessage messages m r) m r
        = storeMessage messages m r :=
      storeMessage_of_exists r hex2
    refine ⟨hstore2, ?_⟩
    rw [countPair] at hcp
    have hpr : ((toCached m r).sender == m.sender
        && (toCached m r).timestamp == m.timestamp) = true := by
      rw [toCached_sender hs r]
      simp [toCached]
    rw [hstore2, hstore1, countPair, List.filter_append, List.length_append, hcp,
      List.filter_singleton, hpr]
    rfl
  · intro ops hall
    rw [storeAll]
    exact storeAll_pairwise_aux ops [] (by simp) hall

/-- Witness for the amended C4 at concrete records. -/
theorem c4_amended_witness :
    (storeMessage [cachedA] resultA none = [cachedA])
    ∧ (storeMessage (storeMessage [] resultA none) resultA none
          = storeMessage [] resultA none
        ∧ countPair (storeMessage (storeMessage [] resultA none) resultA none)
            resultA.sender resultA.timestamp = 1)
    ∧ (storeAll [(resultA, none)]).Pairwise distinctPair :=
  ⟨c4_amended.1 [cachedA] resultA none cachedA (by decide) rfl rfl,
   c4_amended.2.1 [] resultA none (by decide) (by decide) rfl,
   c4_amended.2.2 [(resultA, none)] (by decide)⟩

/-! ## Retention-cap lemmas -/

theorem bulkMessages_length (n : Nat) : (bulkMessages n).length = n := by
  induction n with
  | zero => rfl
  | succ k ih => simp [bulkMessages, ih]

theorem bulkMessages_sender (n : Nat) : ∀ c ∈ bulkMessages n, c.sender = "bulk" := by
  induction n with
  | zero => simp [bulkMessages]
  | succ k ih =>
    intro c hc
    rw [bulkMessages] at hc
    rcases List.mem_cons.mp hc with rfl | hc
    · rfl
    · exact ih c hc

theorem existsCheck_bulk (n : Nat) : existsCheck (bulkMessages n) probeB = false := by
  rw [existsCheck, List.any_eq_false]
  intro c hc hp
  rw [Bool.and_eq_true] at hp
  have hs := bulkMessages_sender n c hc
  have h2 : c.sender = probeB.sender := eq_of_beq hp.2
  rw [hs] at h2
  exact absurd h2 (by decide)

theorem storeMessage_length_le (messages : List CachedMessage) (m : MessageResult)
    (r : Option String) :
    (storeMessage messages m r).length ≤ max messages.length maxMessages := by
  cases hex : existsCheck messages m with
  | true =>
    rw [storeMessage_of_exists r hex]
    exact le_max_left _ _
  | false =>
    by_cases hlen : maxMessages < (messages ++ [toCached m r]).length
    · rw [storeMessage_trim r hex hlen]
      exact le_trans (List.length_take_le _ _) (le_max_right _ _)
    · rw [storeMessage_push r hex hlen]
      exact le_trans (le_of_not_lt hlen) (le_max_right _ _)

theorem storeAll_length_aux : ∀ (ops : List (MessageResult × Option String))
    (acc : List CachedMessage), acc.length ≤ maxMessages →
    (ops.foldl (fun s p => storeMessage s p.1 p.2) acc).length ≤ maxMessages := by
  intro ops
  induction ops with
  | nil => intro acc h; simpa using h
  | cons p ps ih =>
    intro acc h
    rw [List.foldl_cons]
    apply ih
    have hle := storeMessage_length_le acc p.1 p.2
    rw [max_eq_right h] at hle
    exact hle

/-- Claim C9: the cache reachable by `storeMessage` insertions never holds
more than 10000 messages (and a single call never grows it beyond the
maximum of its previous size and the cap); whenever an insert overflows
the cap, the retained records together with the evicted ones are exactly
the pushed records, exactly `maxMessages` are retained, and every
retained record has a timestamp at least as large as every evicted
record's. -/
theorem c9_cap_and_eviction :
    (∀ ops : List (MessageResult × Option String), (storeAll ops).length ≤ maxMessages)
    ∧ (∀ (messages : List CachedMessage) (m : MessageResult) (r : Option String),
        (storeMessage messages m r).length ≤ max messages.length maxMessages)
    ∧ (∀ (messages : List CachedMessage) (m : MessageResult) (r : Option String),
        existsCheck messages m = false →
        maxMessages < (messages ++ [toCached m r]).length →
        (storeMessage messages m r).length = maxMessages
        ∧ (storeMessage messages m r ++ evicted messages m r).Perm
            (messages ++ [toCached m r])
        ∧ ∀ x ∈ storeMessage messages m r, ∀ y ∈ evicted messages m r,
            y.timestamp ≤ x.timestamp) := by
  refine ⟨?_, storeMessage_length_le, ?_⟩
  · intro ops
    rw [storeAll]
    exact storeAll_length_aux ops [] (by simp [maxMessages])
  · intro messages m r hex hlen
    have hstore : storeMessage messages m r
        = (sortByDesc (fun c => c.timestamp) (messages ++ [toCached m r])).take maxMessages :=
      storeMessage_trim r hex hlen
    have hsortlen : (sortByDesc (fun c : CachedMessage => c.timestamp)
        (messages ++ [toCached m r])).length = (messages ++ [toCached m r]).length :=
      (sortByDesc_perm _ _).length_eq
    refine ⟨?_, ?_, ?_⟩
    · rw [hstore, List.length_take, hsortlen]
      omega
    · rw [hstore, evicted, List.take_append_drop]
      exact sortByDesc_perm _ _
    · intro x hx y hy
      rw [hstore] at hx
      rw [evicted] at hy
      exact pairwise_take_drop
        (sortByDesc_pairwise (fun c : CachedMessage => c.timestamp)
          (messages ++ [toCached m r])) maxMessages x hx y hy

/-- Witness for C9 at a full cache of 10000 records. -/
theorem c9_cap_and_eviction_witness :
    existsCheck (bulkMessages 10000) probeB = false
    ∧ maxMessages < (bulkMessages 10000 ++ [toCached probeB none]).length
    ∧ ((storeMessage (bulkMessages 10000) probeB none).length = maxMessages
        ∧ (storeMessage (bulkMessages 10000) probeB none
            ++ evicted (bulkMessages 10000) probeB none).Perm
            (bulkMessages 10000 ++ [toCached probeB none])
        ∧ ∀ x ∈ storeMessage (bulkMessages 10000) probeB none,
            ∀ y ∈ evicted (bulkMessages 10000) probeB none,
              y.timestamp ≤ x.timestamp) := by
  have h1 := existsCheck_bulk 10000
  have h2 : maxMessages < (bulkMessages 10000 ++ [toCached probeB none]).length := by
    rw [List.length_append, bulkMessages_length]
    simp [maxMessages]
  exact ⟨h1, h2, c9_cap_and_eviction.2.2 (bulkMessages 10000) probeB none h1 h2⟩

/-- Witness for C8: a store with one non-matching record yields the empty
result for the query "meeting". -/
theorem c8_search_only_matches_witness :
    (∀ m ∈ [CachedMessage.mk "alice" none none 3 (some "hello") false none false],
        matchesQueryCached (strToLower "meeting") m = false)
    ∧ searchMessages [CachedMessage.mk "alice" none none 3 (some "hello") false none false]
        "meeting" none 50 = [] :=
  ⟨by decide,
   (c8_search_only_matches [CachedMessage.mk "alice" none none 3 (some "hello") false none false]
      "meeting" none 50).2 (by decide)⟩

end SignalMcp
